import Mathlib

/-!
Verification of `openproject-mcp`.

This file embeds, shallowly, the parts of the repository that the frozen
claims are about:

* `src/telegram_app/mcp_handler.py` — the `AgentManager` class: session/agent
  lifecycle manager (`_create_agent`, `_get_or_create_agent`, `process_message`,
  `_cleanup_agent`, `shutdown`).  Its registries (`_agents`, `_sessions`,
  `_exit_stacks`, `_locks`) are Python dicts, modelled as association lists;
  the external effects (subprocess open, MCP session, agent invocation,
  `AsyncExitStack.aclose`) are modelled by oracles recording which step
  succeeds or fails, and by ghost fields tracking which resource ids were
  opened and released.
* `src/openproject/format_utils.py` — `convert_hours_to_iso8601_duration` and
  `convert_iso8601_duration_to_hours` (Python floats modelled as `ℚ`;
  `re.search(r'(\d+)H')` modelled as a left-to-right scan for the first
  maximal digit run immediately followed by the given letter, which agrees
  with the regex on every input).
* `src/mcp_server/openproject_server.py` — the `log_time` MCP tool — and
  `src/openproject/endpoints.py` — `log_time_on_task` (the HTTP POST is
  abstracted to the request payload that would be sent; `None` means no
  request was sent).

A separate small-step interleaved-task model of `_get_or_create_agent` /
`_create_agent` / `_cleanup_agent` under asyncio's cooperative scheduling
(atomic blocks between `await` points, `asyncio.Lock` with FIFO hand-off)
is used for the concurrency claim.
-/

namespace OpenProjectMCP

/-! ## Association lists: the model of Python `dict` -/

/-- Lookup in an association list (`d[k]` / `k in d`). -/
def alookup [DecidableEq κ] (k : κ) : List (κ × α) → Option α
  | [] => none
  | (k', v) :: rest => if k' = k then some v else alookup k rest

/-- Remove every binding of `k` (`d.pop(k, None)`). -/
def aerase [DecidableEq κ] (k : κ) : List (κ × α) → List (κ × α)
  | [] => []
  | (k', v) :: rest => if k' = k then aerase k rest else (k', v) :: aerase k rest

/-- Overwrite the binding of `k` (`d[k] = v`). -/
def ainsert [DecidableEq κ] (k : κ) (v : α) (l : List (κ × α)) : List (κ × α) :=
  (k, v) :: aerase k l

/-! ## `AgentManager` state (`src/telegram_app/mcp_handler.py`)

The four dicts of `AgentManager.__init__`, plus ghost instrumentation:
`nextId` is a fresh-identity source for subprocess channels, sessions,
agents and locks; `openedRes` / `closedRes` record which resource ids
(stdio subprocess channel, `ClientSession`) have been entered into /
released by an `AsyncExitStack`; `createRuns` counts how many times the
creation sequence of `_create_agent` has started (the
`"Creating new agent for thread_id"` log line). -/

structure MgrState where
  agents : List (String × Nat)
  sessions : List (String × Nat)
  exit_stacks : List (String × List Nat)
  locks : List (String × Nat)
  nextId : Nat
  openedRes : List Nat
  closedRes : List Nat
  createRuns : Nat
deriving DecidableEq

/-- The empty manager, as built by `AgentManager.__init__`. -/
def mgr0 : MgrState :=
  { agents := [], sessions := [], exit_stacks := [], locks := [],
    nextId := 0, openedRes := [], closedRes := [], createRuns := 0 }

/-- Which external step of `_create_agent` raises, if any.  The six failure
points are: entering `stdio_client`, entering `ClientSession`,
`session.initialize()`, `load_mcp_tools`, `get_projects` (context fetch),
`create_react_agent` (agent construction). -/
structure CreationOracle where
  failStdio : Bool
  failSession : Bool
  failInit : Bool
  failTools : Bool
  failProjects : Bool
  failConstruct : Bool
deriving DecidableEq

/-- Whether any bootstrap step fails. -/
def CreationOracle.anyFail (o : CreationOracle) : Bool :=
  o.failStdio || o.failSession || o.failInit || o.failTools || o.failProjects || o.failConstruct

/-- The all-success oracle. -/
def okOracle : CreationOracle :=
  { failStdio := false, failSession := false, failInit := false,
    failTools := false, failProjects := false, failConstruct := false }

/-- Oracle where `session.initialize()` raises. -/
def failInitOracle : CreationOracle :=
  { okOracle with failInit := true }

deriving instance DecidableEq for Except

/-- `AgentManager._cleanup_agent`, with an oracle saying for which keys
`AsyncExitStack.aclose()` raises.  On a raise the exception propagates
(first component `some e`) and — as in the source — the subsequent
`pop` calls on `_agents`, `_sessions` and `_locks` are skipped, and the
stack's resources are not recorded as released. -/
def cleanup_agent_e (aclose_fails : String → Bool) (thread_id : String) (st : MgrState) :
    Option String × MgrState :=
  match alookup thread_id st.exit_stacks with
  | some stack =>
    let st1 := { st with exit_stacks := aerase thread_id st.exit_stacks }
    if aclose_fails thread_id then (some "aclose failed", st1)
    else
      let st2 := { st1 with closedRes := stack ++ st1.closedRes }
      (none, { st2 with agents := aerase thread_id st2.agents,
                        sessions := aerase thread_id st2.sessions,
                        locks := aerase thread_id st2.locks })
  | none =>
      (none, { st with agents := aerase thread_id st.agents,
                       sessions := aerase thread_id st.sessions,
                       locks := aerase thread_id st.locks })

/-- `AgentManager._cleanup_agent` when `aclose` does not raise (the
behaviour of the method itself: all its own operations are non-raising
`pop(key, None)` / guarded `pop`). -/
def cleanup_agent (thread_id : String) (st : MgrState) : MgrState :=
  (cleanup_agent_e (fun _ => false) thread_id st).2

/-- `AgentManager._create_agent`.  Returns the created agent handle or the
propagated error, together with the updated manager state.  Mirrors the
source: the early return when an agent already exists; `_exit_stacks` is
populated before the `try`; each external step may raise per the oracle, in
which case `_cleanup_agent` runs and the error is re-raised; `_sessions`
and `_agents` are published only after every step succeeded. -/
def create_agent (o : CreationOracle) (thread_id : String) (st : MgrState) :
    Except String Nat × MgrState :=
  match alookup thread_id st.agents with
  | some a => (.ok a, st)
  | none =>
    let st1 := { st with exit_stacks := ainsert thread_id [] st.exit_stacks,
                         createRuns := st.createRuns + 1 }
    if o.failStdio then (.error "stdio_client failed", cleanup_agent thread_id st1)
    else
      let rStdio := st1.nextId
      let st2 := { st1 with nextId := st1.nextId + 1,
                            openedRes := rStdio :: st1.openedRes,
                            exit_stacks := ainsert thread_id [rStdio] st1.exit_stacks }
      if o.failSession then (.error "ClientSession failed", cleanup_agent thread_id st2)
      else
        let rSession := st2.nextId
        let st3 := { st2 with nextId := st2.nextId + 1,
                              openedRes := rSession :: st2.openedRes,
                              exit_stacks := ainsert thread_id [rSession, rStdio] st2.exit_stacks }
        if o.failInit then (.error "session.initialize failed", cleanup_agent thread_id st3)
        else if o.failTools then (.error "load_mcp_tools failed", cleanup_agent thread_id st3)
        else if o.failProjects then (.error "get_projects failed", cleanup_agent thread_id st3)
        else if o.failConstruct then (.error "create_react_agent failed", cleanup_agent thread_id st3)
        else
          let agentId := st3.nextId
          let st4 := { st3 with nextId := st3.nextId + 1,
                                sessions := ainsert thread_id rSession st3.sessions,
                                agents := ainsert thread_id agentId st3.agents }
          (.ok agentId, st4)

/-- `AgentManager._get_or_create_agent`, sequential execution (no
contention: the per-key lock is acquired immediately).  Mirrors the
source: fast path on `_agents`, lazy lock creation, re-check under the
lock, and the final `return self._agents[thread_id]` (whose `KeyError`
branch is modelled as an error; it is proved unreachable). -/
def get_or_create_agent (o : CreationOracle) (thread_id : String) (st : MgrState) :
    Except String Nat × MgrState :=
  match alookup thread_id st.agents with
  | some a => (.ok a, st)
  | none =>
    let st1 :=
      match alookup thread_id st.locks with
      | some _ => st
      | none => { st with locks := ainsert thread_id st.nextId st.locks,
                          nextId := st.nextId + 1 }
    match alookup thread_id st1.agents with
    | some a => (.ok a, st1)
    | none =>
      match create_agent o thread_id st1 with
      | (.error e, st') => (.error e, st')
      | (.ok _, st') =>
        match alookup thread_id st'.agents with
        | some a => (.ok a, st')
        | none => (.error "KeyError", st')

/-- The shape of the value returned by `agent_executor.ainvoke`, as far as
`process_message` inspects it: `isinstance(response, dict)`,
`"messages" in response`, truthiness of `response["messages"]`, and
`response["messages"][-1].content`. -/
inductive AgentResponse
  | notDict
  | dictNoMessages
  | dictMessages (contents : List String)
deriving DecidableEq

/-- The final-content extraction of `process_message`: start from the fixed
fallback and overwrite it with the last message's content when the response
is a dict with a non-empty `"messages"` list. -/
def extract_final_content (response : AgentResponse) : String :=
  match response with
  | .dictMessages (m :: ms) => (m :: ms).getLast (List.cons_ne_nil m ms)
  | _ => "Не удалось извлечь ответ."

/-- `AgentManager.process_message`.  `inv` is the outcome of
`agent_executor.ainvoke` (`.error e` models a raised exception with text
`e`).  The source's `try/except` converts every raised error into a
user-facing string after calling `_cleanup_agent`. -/
def process_message (o : CreationOracle) (inv : Except String AgentResponse)
    (api_key : String) (query : String) (thread_id : String) (st : MgrState) :
    String × MgrState :=
  if api_key = "" then ("Ошибка: API ключ не предоставлен.", st)
  else
    match get_or_create_agent o thread_id st with
    | (.error e, st') =>
        ("К сожалению, произошла внутренняя ошибка. Попробуйте снова.\n\nДетали: " ++ e,
         cleanup_agent thread_id st')
    | (.ok _agent, st') =>
      match inv with
      | .error e =>
          ("К сожалению, произошла внутренняя ошибка. Попробуйте снова.\n\nДетали: " ++ e,
           cleanup_agent thread_id st')
      | .ok response => (extract_final_content response, st')

/-- Keys of an association list (`list(d.keys())`). -/
def keysOf (l : List (String × α)) : List String := l.map Prod.fst

/-- The `for` loop body of `AgentManager.shutdown`: release each key in
turn; a raise from `_cleanup_agent` aborts the loop and propagates. -/
def shutdown_loop (aclose_fails : String → Bool) :
    List String → MgrState → Option String × MgrState
  | [], st => (none, st)
  | k :: ks, st =>
    match cleanup_agent_e aclose_fails k st with
    | (none, st') => shutdown_loop aclose_fails ks st'
    | (some e, st') => (some e, st')

/-- `AgentManager.shutdown`: iterate `_cleanup_agent` over
`list(self._exit_stacks.keys())`. -/
def shutdown (aclose_fails : String → Bool) (st : MgrState) : Option String × MgrState :=
  shutdown_loop aclose_fails (keysOf st.exit_stacks) st

/-- A manager with one established session for key `"42"` (the state after
one successful creation from the empty manager). -/
def mgrWithAgent : MgrState :=
  { agents := [("42", 7)], sessions := [("42", 1)], exit_stacks := [("42", [1, 0])],
    locks := [("42", 5)], nextId := 8, openedRes := [1, 0], closedRes := [], createRuns := 1 }

/-- A manager tracking two live sessions `"a"` and `"b"` (each with its
stdio channel and `ClientSession` resource in its exit stack), used to
exercise `shutdown` when releasing `"a"` raises. -/
def shutdownDemo : MgrState :=
  { agents := [("a", 10), ("b", 11)], sessions := [("a", 1), ("b", 3)],
    exit_stacks := [("a", [1, 0]), ("b", [3, 2])], locks := [("a", 20), ("b", 21)],
    nextId := 22, openedRes := [3, 2, 1, 0], closedRes := [], createRuns := 2 }

/-! ## Duration formatting (`src/openproject/format_utils.py`) -/

/-- Decimal digit character for `n < 10` (Python's `str` on naturals). -/
def digitChar (n : Nat) : Char :=
  match n with
  | 0 => '0' | 1 => '1' | 2 => '2' | 3 => '3' | 4 => '4'
  | 5 => '5' | 6 => '6' | 7 => '7' | 8 => '8' | _ => '9'

/-- Decimal digits of a natural number, most significant first
(Python's `f"{h}"` on a non-negative int). -/
def natToDigits (n : Nat) : List Char :=
  if h : n < 10 then [digitChar n]
  else natToDigits (n / 10) ++ [digitChar (n % 10)]
decreasing_by
  exact Nat.div_lt_self (by omega) (by omega)

/-- Numeric value of a digit string (`float(match.group(1))` restricted to
digit runs; `'0'` has code point 48). -/
def digitsVal (l : List Char) : Nat :=
  l.foldl (fun a c => a * 10 + (c.toNat - 48)) 0

/-- Scanner state for `re.search(r'(\d+)X', s)`: `acc = some v` means we are
inside a digit run of value `v`.  A maximal digit run immediately followed
by `c` yields the run's value; otherwise the scan continues.  This agrees
with `re.search` for a pattern of digits followed by one literal character:
the leftmost digit run followed by `c` is found, and backtracking inside a
run cannot create a match that the maximal run does not have (after a
shorter prefix of a run comes a digit, not `c`). -/
def findIntAux (c : Char) (acc : Option Nat) : List Char → Option Nat
  | [] => none
  | x :: xs =>
    match acc with
    | some v =>
      if x.isDigit then findIntAux c (some (v * 10 + (x.toNat - 48))) xs
      else if x = c then some v
      else findIntAux c none xs
    | none =>
      if x.isDigit then findIntAux c (some (x.toNat - 48)) xs
      else findIntAux c none xs

/-- `re.search(r'(\d+)c', s)` returning the numeric value of group 1. -/
def findIntBefore (c : Char) (s : List Char) : Option Nat :=
  findIntAux c none s

/-- `convert_hours_to_iso8601_duration` (`format_utils.py`).  Python floats
are modelled as `ℚ`; `int(hours * 60)` truncates toward zero, which on the
non-negative path (the negative case raised already) equals the floor. -/
def convert_hours_to_iso8601_duration (hours : ℚ) : Except String String :=
  if hours < 0 then .error "Количество часов не может быть отрицательным."
  else
    let total_minutes : Nat := (Int.floor (hours * 60)).toNat
    if total_minutes = 0 then .ok "PT0S"
    else
      let h := total_minutes / 60
      let m := total_minutes % 60
      let duration_parts : List (List Char) :=
        (if 0 < h then [natToDigits h ++ ['H']] else []) ++
        (if 0 < m then [natToDigits m ++ ['M']] else [])
      if duration_parts = [] then .ok "PT0S"
      else .ok (String.mk (['P', 'T'] ++ duration_parts.flatten))

/-- `convert_iso8601_duration_to_hours` (`format_utils.py`).  The source's
`iso_duration.startswith("PT")` test plus `iso_duration[2:]` is modelled by
the list pattern `'P' :: 'T' :: rest`; the two `re.search` calls by
`findIntBefore`; missing groups leave the respective component `0.0`. -/
def convert_iso8601_duration_to_hours (iso_duration : String) : Except String ℚ :=
  match iso_duration.toList with
  | 'P' :: 'T' :: rest =>
    let hours : ℚ := match findIntBefore 'H' rest with | some n => (n : ℚ) | none => 0
    let minutes : ℚ := match findIntBefore 'M' rest with | some n => (n : ℚ) | none => 0
    .ok (hours + minutes / 60)
  | _ => .error "Неверный формат ISO 8601 Duration. Должен начинаться с PT."

/-! ## Time logging (`src/mcp_server/openproject_server.py` and
`src/openproject/endpoints.py`) -/

/-- The time-entry POST payload `log_time_on_task` would send to
`/api/v3/time_entries` (the HTTP transport itself is external).  `hours`
carries the ISO 8601 duration string. -/
structure TimeEntryRequest where
  hours_iso : String
  task_id : Int
  comment : Option String
deriving DecidableEq

/-- `log_time_on_task` (`endpoints.py`), up to the point where the HTTP
request is (or is not) issued: converting the hours raises `ValueError` for
negative input, which is caught and turns the call into `None` — no request
is sent.  Otherwise the payload that would be POSTed is returned. -/
def log_time_on_task (task_id : Int) (hours : ℚ) (comment : Option String) :
    Option TimeEntryRequest :=
  match convert_hours_to_iso8601_duration hours with
  | .error _ => none
  | .ok iso => some { hours_iso := iso, task_id := task_id, comment := comment }

/-- `log_time` MCP tool (`openproject_server.py`).  Returns the reply text
together with the request `log_time_on_task` sent (`none` = no request).
`api_key` is `os.getenv("OPENPROJECT_API_KEY")` (empty = unset); message
texts with `{hours}` / `{task_id}` keep the source's f-string template
uninterpolated, since no claim depends on the interpolation.  `sendOk`
models whether the external POST succeeded. -/
def log_time (api_key : String) (sendOk : Bool) (task_id : Int) (hours : ℚ)
    (comment : Option String) : String × Option TimeEntryRequest :=
  if api_key = "" then ("Ошибка: Ключ API не настроен. Запуск невозможен.", none)
  else if hours < 0 then ("Ошибка: Нельзя зарегистрировать отрицательное время.", none)
  else
    match log_time_on_task task_id hours comment with
    | some req =>
      if sendOk then ("Время успешно зарегистрировано: {hours} ч на задачу ID: {task_id}.", some req)
      else ("Не удалось зарегистрировать время ({hours} ч) на задачу ID: {task_id}. Проверьте лог сервера для деталей.", some req)
    | none => ("Не удалось зарегистрировать время ({hours} ч) на задачу ID: {task_id}. Проверьте лог сервера для деталей.", none)

/-! ## Interleaved-task model of `_get_or_create_agent`
(`src/telegram_app/mcp_handler.py` under asyncio)

asyncio runs one task at a time; a task only yields control at `await`
points.  The `await` points of `_get_or_create_agent` / `_create_agent` /
`_cleanup_agent` are: `lock.acquire()` when the lock is busy, the four
awaited bootstrap steps inside `_create_agent` (`stdio_client` enter,
`ClientSession` enter, `session.initialize()`, `load_mcp_tools`) and
`stack.aclose()` inside `_cleanup_agent`.  `get_projects`,
`create_react_agent`, the dict reads/writes, `lock.release()` and `raise`
are synchronous and execute atomically with the adjacent resumption.
`asyncio.Lock.release` hands the lock to the first waiter (FIFO); a fresh
acquire of a free lock with no waiters completes without suspending. -/

/-- Program counter of one task running `_get_or_create_agent(key)`. -/
inductive TPc
  /-- about to execute the method from the top -/
  | ready
  /-- suspended in `lock.acquire()` on lock `l` -/
  | waiting (l : Nat)
  /-- woken holding lock `l`, about to re-check `_agents` -/
  | acquired (l : Nat)
  /-- inside `_create_agent`, suspended at awaited step `n` (0 = stdio
  enter, 1 = session enter, 2 = initialize, 3 = load tools) -/
  | creating (l : Nat) (n : Nat)
  /-- inside `_cleanup_agent`, suspended at `stack.aclose()` -/
  | cleaning (l : Nat)
  /-- returned an agent -/
  | doneOk
  /-- the creation error propagated -/
  | doneFail
deriving DecidableEq

/-- One task: its `thread_id`, which step of its creation attempt raises
(4 = the synchronous `get_projects` / `create_react_agent` tail), and its
program counter. -/
structure TaskT where
  key : String
  failAt : Option Nat
  pc : TPc
deriving DecidableEq

/-- An `asyncio.Lock`: current holder and FIFO waiter queue. -/
structure LockSt where
  holder : Option Nat
  waiters : List Nat
deriving DecidableEq

/-- Global state: the manager's dicts (`_agents`/`_sessions`/`_exit_stacks`
as key sets, `_locks` as key → lock id), the lock objects (which survive
being popped from `_locks` while referenced), and the tasks. -/
structure Sys where
  agents : List String
  sessions : List String
  exit_stacks : List String
  lockMap : List (String × Nat)
  lockSts : List (Nat × LockSt)
  nextLock : Nat
  tasks : List (Nat × TaskT)
deriving DecidableEq

/-- Insert into a key set (`d[k] = v` on a dict viewed as a set of keys). -/
def insertSet (k : String) (l : List String) : List String :=
  if k ∈ l then l else k :: l

/-- Remove from a key set (`d.pop(k, None)`). -/
def eraseSet (k : String) (l : List String) : List String :=
  l.filter (fun x => x != k)

/-- Overwrite task `tid`'s program counter. -/
def setPc (tid : Nat) (pc : TPc) (s : Sys) : Sys :=
  { s with tasks := s.tasks.map (fun p => if p.1 = tid then (p.1, { p.2 with pc := pc }) else p) }

/-- `lock.release()`: hand the lock to the first waiter (waking it at the
re-check point) or mark it free. -/
def releaseLock (s : Sys) (l : Nat) : Sys :=
  match alookup l s.lockSts with
  | some lst =>
    match lst.waiters with
    | w :: ws =>
      setPc w (.acquired l) { s with lockSts := ainsert l { holder := some w, waiters := ws } s.lockSts }
    | [] => { s with lockSts := ainsert l { holder := none, waiters := [] } s.lockSts }
  | none => s

/-- Having just acquired lock `l`, re-check `_agents` and, if the key is
still absent, enter `_create_agent` up to its first `await` (which has
already registered the empty exit stack under the key). -/
def enterCreate (s : Sys) (tid : Nat) (key : String) (l : Nat) : Sys :=
  if key ∈ s.agents then setPc tid .doneOk (releaseLock s l)
  else setPc tid (.creating l 0) { s with exit_stacks := insertSet key s.exit_stacks }

/-- A bootstrap step raised: run `_cleanup_agent` up to `stack.aclose()`
(pop of `_exit_stacks`, then suspend), or — when the key has no stack —
run the remaining pops, release the lock and propagate synchronously. -/
def startCleanup (s : Sys) (tid : Nat) (key : String) (l : Nat) : Sys :=
  if key ∈ s.exit_stacks then
    setPc tid (.cleaning l) { s with exit_stacks := eraseSet key s.exit_stacks }
  else
    let s1 := { s with agents := eraseSet key s.agents, sessions := eraseSet key s.sessions,
                       lockMap := aerase key s.lockMap }
    setPc tid .doneFail (releaseLock s1 l)

/-- Resume after `stack.aclose()`: pop `_agents`, `_sessions` and `_locks`,
release the lock, propagate the error. -/
def finishCleanup (s : Sys) (tid : Nat) (key : String) (l : Nat) : Sys :=
  let s1 := { s with agents := eraseSet key s.agents, sessions := eraseSet key s.sessions,
                     lockMap := aerase key s.lockMap }
  setPc tid .doneFail (releaseLock s1 l)

/-- Run task `tid` for one atomic block (between suspension points). -/
def stepSys (s : Sys) (tid : Nat) : Sys :=
  match alookup tid s.tasks with
  | none => s
  | some t =>
    match t.pc with
    | .ready =>
      if t.key ∈ s.agents then setPc tid .doneOk s
      else
        match alookup t.key s.lockMap with
        | some l =>
          (match alookup l s.lockSts with
           | some lst =>
             match lst.holder, lst.waiters with
             | none, [] => enterCreate { s with lockSts := ainsert l { holder := some tid, waiters := [] } s.lockSts } tid t.key l
             | _, _ =>
               setPc tid (.waiting l)
                 { s with lockSts := ainsert l { holder := lst.holder, waiters := lst.waiters ++ [tid] } s.lockSts }
           | none => s)
        | none =>
          let l := s.nextLock
          let s1 := { s with lockMap := ainsert t.key l s.lockMap,
                             lockSts := ainsert l { holder := some tid, waiters := [] } s.lockSts,
                             nextLock := s.nextLock + 1 }
          enterCreate s1 tid t.key l
    | .waiting _ => s
    | .acquired l => enterCreate s tid t.key l
    | .creating l n =>
      if t.failAt = some n then startCleanup s tid t.key l
      else if n < 3 then setPc tid (.creating l (n + 1)) s
      else if t.failAt = some 4 then startCleanup s tid t.key l
      else
        let s1 := { s with agents := insertSet t.key s.agents, sessions := insertSet t.key s.sessions }
        setPc tid .doneOk (releaseLock s1 l)
    | .cleaning l => finishCleanup s tid t.key l
    | .doneOk => s
    | .doneFail => s

/-- Run a schedule (sequence of task choices). -/
def runSys (s : Sys) (sched : List Nat) : Sys :=
  sched.foldl stepSys s

/-- How many tasks are currently executing `_create_agent`. -/
def countCreating (s : Sys) : Nat :=
  (s.tasks.filter (fun p => match p.2.pc with | .creating _ _ => true | _ => false)).length

/-- Three concurrent `_get_or_create_agent` calls for key `"k"` with no
pre-existing session; task 0's creation fails at the stdio-open step. -/
def sysC1 : Sys :=
  { agents := [], sessions := [], exit_stacks := [], lockMap := [], lockSts := [],
    nextLock := 0,
    tasks := [(0, { key := "k", failAt := some 0, pc := .ready }),
              (1, { key := "k", failAt := none, pc := .ready }),
              (2, { key := "k", failAt := none, pc := .ready })] }

/-! ## Association-list lemmas -/

theorem alookup_aerase_self [DecidableEq κ] (k : κ) (l : List (κ × α)) :
    alookup k (aerase k l) = none := by
  induction l with
  | nil => rfl
  | cons p rest ih =>
    obtain ⟨k', v⟩ := p
    by_cases h : k' = k <;> simp [aerase, alookup, h, ih]

theorem alookup_aerase_ne [DecidableEq κ] {k k' : κ} (l : List (κ × α)) (h : k' ≠ k) :
    alookup k' (aerase k l) = alookup k' l := by
  induction l with
  | nil => rfl
  | cons p rest ih =>
    obtain ⟨a, v⟩ := p
    by_cases ha : a = k
    · subst ha
      have hk : ¬ a = k' := fun hh => h hh.symm
      simp [aerase, alookup, hk, ih]
    · simp [aerase, alookup, ha, ih]

theorem aerase_aerase [DecidableEq κ] (k : κ) (l : List (κ × α)) :
    aerase k (aerase k l) = aerase k l := by
  induction l with
  | nil => rfl
  | cons p rest ih =>
    obtain ⟨a, v⟩ := p
    by_cases h : a = k <;> simp [aerase, h, ih]

theorem aerase_of_alookup_none [DecidableEq κ] {k : κ} {l : List (κ × α)}
    (h : alookup k l = none) : aerase k l = l := by
  induction l with
  | nil => rfl
  | cons p rest ih =>
    obtain ⟨a, v⟩ := p
    by_cases ha : a = k
    · simp [alookup, ha] at h
    · simp [alookup, ha] at h
      simp [aerase, ha, ih h]

theorem alookup_aerase_none [DecidableEq κ] {k' : κ} (k : κ) {l : List (κ × α)}
    (h : alookup k' l = none) : alookup k' (aerase k l) = none := by
  by_cases hk : k' = k
  · subst hk; exact alookup_aerase_self k' l
  · rw [alookup_aerase_ne l hk]; exact h

theorem alookup_ainsert_self [DecidableEq κ] (k : κ) (v : α) (l : List (κ × α)) :
    alookup k (ainsert k v l) = some v := by
  simp [ainsert, alookup]

theorem alookup_ainsert_ne [DecidableEq κ] {k k' : κ} (v : α) (l : List (κ × α))
    (h : k' ≠ k) : alookup k' (ainsert k v l) = alookup k' l := by
  have hk : ¬ k = k' := fun hh => h hh.symm
  simp [ainsert, alookup, hk, alookup_aerase_ne l h]

theorem alookup_ne_none_mem_keys {l : List (String × α)} {k : String}
    (h : alookup k l ≠ none) : k ∈ keysOf l := by
  induction l with
  | nil => exact absurd rfl h
  | cons p rest ih =>
    obtain ⟨a, v⟩ := p
    simp only [keysOf, List.map_cons]
    by_cases ha : a = k
    · subst ha; exact List.mem_cons_self a _
    · simp only [alookup, if_neg ha] at h
      exact List.mem_cons_of_mem a (ih h)

/-! ## `_cleanup_agent` lemmas -/

theorem cleanup_agent_spec (thread_id : String) (st : MgrState) :
    alookup thread_id (cleanup_agent thread_id st).agents = none ∧
    alookup thread_id (cleanup_agent thread_id st).sessions = none ∧
    alookup thread_id (cleanup_agent thread_id st).exit_stacks = none ∧
    alookup thread_id (cleanup_agent thread_id st).locks = none := by
  unfold cleanup_agent cleanup_agent_e
  cases h : alookup thread_id st.exit_stacks <;>
    simp [alookup_aerase_self, h]

theorem cleanup_agent_createRuns (thread_id : String) (st : MgrState) :
    (cleanup_agent thread_id st).createRuns = st.createRuns := by
  unfold cleanup_agent cleanup_agent_e
  cases h : alookup thread_id st.exit_stacks <;> simp [h]

theorem cleanup_agent_noop (thread_id : String) (st : MgrState)
    (ha : alookup thread_id st.agents = none)
    (hs : alookup thread_id st.sessions = none)
    (he : alookup thread_id st.exit_stacks = none)
    (hl : alookup thread_id st.locks = none) :
    cleanup_agent thread_id st = st := by
  unfold cleanup_agent cleanup_agent_e
  rw [he]
  simp [aerase_of_alookup_none ha, aerase_of_alookup_none hs, aerase_of_alookup_none hl]

theorem cleanup_agent_e_noraise (f : String → Bool) (thread_id : String) (st : MgrState)
    (he : alookup thread_id st.exit_stacks = none) :
    (cleanup_agent_e f thread_id st).1 = none := by
  unfold cleanup_agent_e
  rw [he]

theorem cleanup_agent_mono_none (k k' : String) (st : MgrState) :
    (alookup k' st.agents = none → alookup k' (cleanup_agent k st).agents = none) ∧
    (alookup k' st.sessions = none → alookup k' (cleanup_agent k st).sessions = none) ∧
    (alookup k' st.exit_stacks = none → alookup k' (cleanup_agent k st).exit_stacks = none) ∧
    (alookup k' st.locks = none → alookup k' (cleanup_agent k st).locks = none) := by
  refine ⟨fun hh => ?_, fun hh => ?_, fun hh => ?_, fun hh => ?_⟩ <;>
  · unfold cleanup_agent cleanup_agent_e
    cases h : alookup k st.exit_stacks <;>
      simp [h, hh, alookup_aerase_none k hh]

theorem cleanup_agent_mono_closed (k : String) (st : MgrState) :
    ∀ r ∈ st.closedRes, r ∈ (cleanup_agent k st).closedRes := by
  unfold cleanup_agent cleanup_agent_e
  cases h : alookup k st.exit_stacks <;> simp [h]
  intro r hr
  exact Or.inr hr

theorem cleanup_agent_frame (k k' : String) (st : MgrState) (hne : k' ≠ k) :
    alookup k' (cleanup_agent k st).agents = alookup k' st.agents ∧
    alookup k' (cleanup_agent k st).sessions = alookup k' st.sessions ∧
    alookup k' (cleanup_agent k st).exit_stacks = alookup k' st.exit_stacks ∧
    alookup k' (cleanup_agent k st).locks = alookup k' st.locks := by
  unfold cleanup_agent cleanup_agent_e
  cases h : alookup k st.exit_stacks <;>
    simp [h, alookup_aerase_ne _ hne]

theorem cleanup_agent_closes_stack (k : String) (st : MgrState) (stack : List Nat)
    (h : alookup k st.exit_stacks = some stack) :
    ∀ r ∈ stack, r ∈ (cleanup_agent k st).closedRes := by
  unfold cleanup_agent cleanup_agent_e
  rw [h]
  intro r hr
  simp
  exact Or.inl hr

/-! ## `_create_agent` / `_get_or_create_agent` / `process_message` lemmas -/

theorem create_agent_createRuns (o : CreationOracle) (thread_id : String) (st : MgrState)
    (hAbsent : alookup thread_id st.agents = none) :
    (create_agent o thread_id st).2.createRuns = st.createRuns + 1 := by
  unfold create_agent
  rw [hAbsent]
  by_cases h1 : o.failStdio
  · simp [h1, cleanup_agent_createRuns]
  by_cases h2 : o.failSession
  · simp [h1, h2, cleanup_agent_createRuns]
  by_cases h3 : o.failInit
  · simp [h1, h2, h3, cleanup_agent_createRuns]
  by_cases h4 : o.failTools
  · simp [h1, h2, h3, h4, cleanup_agent_createRuns]
  by_cases h5 : o.failProjects
  · simp [h1, h2, h3, h4, h5, cleanup_agent_createRuns]
  by_cases h6 : o.failConstruct
  · simp [h1, h2, h3, h4, h5, h6, cleanup_agent_createRuns]
  · simp [h1, h2, h3, h4, h5, h6]

theorem get_or_create_agent_hit (o : CreationOracle) (thread_id : String) (st : MgrState)
    (a : Nat) (h : alookup thread_id st.agents = some a) :
    get_or_create_agent o thread_id st = (.ok a, st) := by
  unfold get_or_create_agent
  rw [h]

theorem get_or_create_agent_createRuns (o : CreationOracle) (thread_id : String)
    (st : MgrState) (hAbsent : alookup thread_id st.agents = none) :
    (get_or_create_agent o thread_id st).2.createRuns = st.createRuns + 1 := by
  unfold get_or_create_agent
  rw [hAbsent]
  cases hl : alookup thread_id st.locks with
  | some l =>
    simp only [hl]
    rw [hAbsent]
    have := create_agent_createRuns o thread_id st hAbsent
    cases hc : create_agent o thread_id st with
    | mk r st' =>
      rw [hc] at this
      cases r with
      | error e => simpa using this
      | ok v =>
        cases ha' : alookup thread_id st'.agents <;> simpa [ha'] using this
  | none =>
    simp only [hl]
    set st1 : MgrState :=
      { st with locks := ainsert thread_id st.nextId st.locks, nextId := st.nextId + 1 } with hst1
    have hAbsent1 : alookup thread_id st1.agents = none := hAbsent
    rw [hAbsent1]
    have := create_agent_createRuns o thread_id st1 hAbsent1
    cases hc : create_agent o thread_id st1 with
    | mk r st' =>
      rw [hc] at this
      cases r with
      | error e => simpa using this
      | ok v =>
        cases ha' : alookup thread_id st'.agents <;> simpa [ha'] using this

theorem process_message_createRuns (o : CreationOracle) (inv : Except String AgentResponse)
    (api_key query thread_id : String) (st : MgrState)
    (hAbsent : alookup thread_id st.agents = none) (hKey : api_key ≠ "") :
    (process_message o inv api_key query thread_id st).2.createRuns = st.createRuns + 1 := by
  unfold process_message
  rw [if_neg hKey]
  have := get_or_create_agent_createRuns o thread_id st hAbsent
  cases hg : get_or_create_agent o thread_id st with
  | mk r st' =>
    rw [hg] at this
    cases r with
    | error e => simpa [cleanup_agent_createRuns] using this
    | ok v =>
      cases inv with
      | error e => simpa [cleanup_agent_createRuns] using this
      | ok resp => simpa using this

theorem process_message_invfail (o : CreationOracle) (e api_key query thread_id : String)
    (st : MgrState) (a : Nat) (hAgent : alookup thread_id st.agents = some a)
    (hKey : api_key ≠ "") :
    process_message o (.error e) api_key query thread_id st =
      ("К сожалению, произошла внутренняя ошибка. Попробуйте снова.\n\nДетали: " ++ e,
       cleanup_agent thread_id st) := by
  unfold process_message
  rw [if_neg hKey, get_or_create_agent_hit o thread_id st a hAgent]

theorem cleanup_agent_openedRes (k : String) (st : MgrState) :
    (cleanup_agent k st).openedRes = st.openedRes := by
  unfold cleanup_agent cleanup_agent_e
  cases h : alookup k st.exit_stacks <;> simp [h]

theorem cleanup_agent_closedRes (k : String) (st : MgrState) (stack : List Nat)
    (h : alookup k st.exit_stacks = some stack) :
    (cleanup_agent k st).closedRes = stack ++ st.closedRes := by
  unfold cleanup_agent cleanup_agent_e
  rw [h]
  rfl

/-! ## Decimal digits and the `re.search` scanner -/

theorem digitChar_isDigit (n : Nat) (h : n < 10) : (digitChar n).isDigit = true := by
  interval_cases n <;> decide

theorem digitChar_val (n : Nat) (h : n < 10) : (digitChar n).toNat - 48 = n := by
  interval_cases n <;> decide

theorem natToDigits_ne_nil (n : Nat) : natToDigits n ≠ [] := by
  rw [natToDigits]
  split <;> simp

theorem natToDigits_digits (n : Nat) : ∀ c ∈ natToDigits n, c.isDigit = true := by
  induction n using Nat.strong_induction_on with
  | _ n ih =>
    rw [natToDigits]
    split
    case isTrue h =>
      intro c hc
      simp only [List.mem_singleton] at hc
      subst hc
      exact digitChar_isDigit n h
    case isFalse h =>
      intro c hc
      rw [List.mem_append] at hc
      rcases hc with hc | hc
      · exact ih (n / 10) (Nat.div_lt_self (by omega) (by omega)) c hc
      · simp only [List.mem_singleton] at hc
        subst hc
        exact digitChar_isDigit (n % 10) (Nat.mod_lt _ (by omega))

theorem digitsVal_natToDigits (n : Nat) : digitsVal (natToDigits n) = n := by
  induction n using Nat.strong_induction_on with
  | _ n ih =>
    rw [natToDigits]
    split
    case isTrue h =>
      simp [digitsVal, digitChar_val n h]
    case isFalse h =>
      have h1 := ih (n / 10) (Nat.div_lt_self (by omega) (by omega))
      unfold digitsVal
      rw [List.foldl_append]
      unfold digitsVal at h1
      rw [h1, List.foldl_cons, List.foldl_nil, digitChar_val (n % 10) (Nat.mod_lt _ (by omega))]
      omega

theorem findIntAux_run (c x : Char) (hx : x.isDigit = false) (t : List Char) :
    ∀ ds, (∀ d ∈ ds, d.isDigit = true) → ∀ a : Nat,
    findIntAux c (some a) (ds ++ x :: t) =
      if x = c then some (ds.foldl (fun acc d => acc * 10 + (d.toNat - 48)) a)
      else findIntBefore c t := by
  intro ds
  induction ds with
  | nil =>
    intro _ a
    simp [findIntAux, hx, findIntBefore]
  | cons d ds ih =>
    intro hds a
    have hd : d.isDigit = true := hds d (by simp)
    simp only [List.cons_append, findIntAux, hd, if_pos]
    rw [show ds.append (x :: t) = ds ++ x :: t from rfl,
        ih (fun d' hd' => hds d' (by simp [hd'])) (a * 10 + (d.toNat - 48))]
    simp

theorem findIntBefore_digits (c x : Char) (hx : x.isDigit = false) (n : Nat) (t : List Char) :
    findIntBefore c (natToDigits n ++ x :: t) =
      if x = c then some n else findIntBefore c t := by
  obtain ⟨d, ds, hds⟩ : ∃ d ds, natToDigits n = d :: ds := by
    cases h : natToDigits n with
    | nil => exact absurd h (natToDigits_ne_nil n)
    | cons d ds => exact ⟨d, ds, rfl⟩
  have hdig := natToDigits_digits n
  rw [hds] at hdig
  have hd : d.isDigit = true := hdig d (by simp)
  have hval : digitsVal (d :: ds) = n := by rw [← hds]; exact digitsVal_natToDigits n
  rw [hds]
  show findIntAux c none (d :: (ds ++ x :: t)) = _
  simp only [findIntAux, hd, if_pos]
  rw [findIntAux_run c x hx t ds (fun d' hd' => hdig d' (by simp [hd'])) (d.toNat - 48)]
  have : ds.foldl (fun acc d' => acc * 10 + (d'.toNat - 48)) (d.toNat - 48) = n := by
    rw [← hval]
    unfold digitsVal
    rw [List.foldl_cons]
    norm_num
  rw [this]

theorem findIntBefore_nil (c : Char) : findIntBefore c [] = none := rfl

/-! ## `shutdown` loop induction -/

theorem shutdown_loop_clears (ks : List String) :
    ∀ st : MgrState, (∀ k, alookup k st.exit_stacks ≠ none → k ∈ ks) →
    (shutdown_loop (fun _ => false) ks st).1 = none ∧
    (∀ k, alookup k (shutdown_loop (fun _ => false) ks st).2.exit_stacks = none) ∧
    (∀ r ∈ st.closedRes, r ∈ (shutdown_loop (fun _ => false) ks st).2.closedRes) ∧
    (∀ k, alookup k st.agents = none →
      alookup k (shutdown_loop (fun _ => false) ks st).2.agents = none) ∧
    (∀ k, alookup k st.sessions = none →
      alookup k (shutdown_loop (fun _ => false) ks st).2.sessions = none) ∧
    (∀ k, alookup k st.locks = none →
      alookup k (shutdown_loop (fun _ => false) ks st).2.locks = none) ∧
    (∀ k stack, alookup k st.exit_stacks = some stack →
      alookup k (shutdown_loop (fun _ => false) ks st).2.agents = none ∧
      alookup k (shutdown_loop (fun _ => false) ks st).2.sessions = none ∧
      alookup k (shutdown_loop (fun _ => false) ks st).2.locks = none ∧
      ∀ r ∈ stack, r ∈ (shutdown_loop (fun _ => false) ks st).2.closedRes) := by
  induction ks with
  | nil =>
    intro st hcov
    have hempty : ∀ k, alookup k st.exit_stacks = none := by
      intro k
      by_contra hne
      exact absurd (hcov k hne) (List.not_mem_nil k)
    refine ⟨rfl, hempty, fun r hr => hr, fun k h => h, fun k h => h, fun k h => h, ?_⟩
    intro k stack hk
    rw [hempty k] at hk
    exact absurd hk (by simp)
  | cons k0 ks ih =>
    intro st hcov
    have hstep : shutdown_loop (fun _ => false) (k0 :: ks) st =
        shutdown_loop (fun _ => false) ks (cleanup_agent k0 st) := by
      show (match cleanup_agent_e (fun _ => false) k0 st with
            | (none, st') => shutdown_loop (fun _ => false) ks st'
            | (some e, st') => (some e, st')) = _
      cases hc : cleanup_agent_e (fun _ => false) k0 st with
      | mk r st' =>
        have hr : r = none := by
          have : (cleanup_agent_e (fun _ => false) k0 st).1 = none := by
            unfold cleanup_agent_e
            cases h : alookup k0 st.exit_stacks <;> simp [h]
          rw [hc] at this
          exact this
        subst hr
        have hst' : st' = cleanup_agent k0 st := by
          unfold cleanup_agent
          rw [hc]
        rw [hst']
    set st1 := cleanup_agent k0 st with hst1
    have hcov1 : ∀ k, alookup k st1.exit_stacks ≠ none → k ∈ ks := by
      intro k hne
      by_cases hk : k = k0
      · subst hk
        exact absurd (cleanup_agent_spec k st).2.2.1 hne
      · rw [(cleanup_agent_frame k0 k st hk).2.2.1] at hne
        have := hcov k hne
        simp only [List.mem_cons] at this
        rcases this with h | h
        · exact absurd h hk
        · exact h
    obtain ⟨g1, g2, g3, g4, g5, g6, g7⟩ := ih st1 hcov1
    rw [hstep]
    refine ⟨g1, g2, ?_, ?_, ?_, ?_, ?_⟩
    · intro r hr
      exact g3 r (cleanup_agent_mono_closed k0 st r hr)
    · intro k h
      exact g4 k ((cleanup_agent_mono_none k0 k st).1 h)
    · intro k h
      exact g5 k ((cleanup_agent_mono_none k0 k st).2.1 h)
    · intro k h
      exact g6 k ((cleanup_agent_mono_none k0 k st).2.2.2 h)
    · intro k stack hk
      by_cases hkk : k = k0
      · subst hkk
        refine ⟨g4 k (cleanup_agent_spec k st).1, g5 k (cleanup_agent_spec k st).2.1,
                g6 k (cleanup_agent_spec k st).2.2.2, ?_⟩
        intro r hr
        exact g3 r (cleanup_agent_closes_stack k st stack hk r hr)
      · have hk1 : alookup k st1.exit_stacks = some stack := by
          rw [(cleanup_agent_frame k0 k st hkk).2.2.1]
          exact hk
        exact g7 k stack hk1

/-! ## Claim theorems -/

/-- C2: if any step of session creation fails (subprocess open, session
initialize, tool enumeration, context fetch, or agent construction), then
after `_create_agent` returns by raising, no entry for the key remains in
`_agents`, `_sessions` or `_exit_stacks`, every resource opened during the
call has been released, and the error propagates to the caller. -/
theorem c2_create_agent_rollback_on_failure (o : CreationOracle) (thread_id : String)
    (st : MgrState) (hAbsent : alookup thread_id st.agents = none)
    (hFail : o.anyFail = true) :
    ∃ e st', create_agent o thread_id st = (.error e, st') ∧
      alookup thread_id st'.agents = none ∧
      alookup thread_id st'.sessions = none ∧
      alookup thread_id st'.exit_stacks = none ∧
      (∀ r ∈ st'.openedRes, r ∉ st.openedRes → r ∈ st'.closedRes) := by
  by_cases h1 : o.failStdio = true
  · refine ⟨"stdio_client failed", _, by simp only [create_agent, hAbsent, h1, if_true]; rfl, ?_, ?_, ?_, ?_⟩
    · exact (cleanup_agent_spec _ _).1
    · exact (cleanup_agent_spec _ _).2.1
    · exact (cleanup_agent_spec _ _).2.2.1
    · intro r hr hnr
      rw [cleanup_agent_openedRes] at hr
      exact absurd hr hnr
  by_cases h2 : o.failSession = true
  · refine ⟨"ClientSession failed", _,
      by simp only [create_agent, hAbsent, h1, h2, if_true, if_false, Bool.false_eq_true]; rfl, ?_, ?_, ?_, ?_⟩
    · exact (cleanup_agent_spec _ _).1
    · exact (cleanup_agent_spec _ _).2.1
    · exact (cleanup_agent_spec _ _).2.2.1
    · intro r hr hnr
      rw [cleanup_agent_openedRes] at hr
      rw [cleanup_agent_closedRes _ _ [st.nextId] (alookup_ainsert_self _ _ _)]
      simp only [List.mem_cons] at hr
      rcases hr with hr | hr
      · simp [hr]
      · exact absurd hr hnr
  by_cases h3 : o.failInit = true
  · refine ⟨"session.initialize failed", _,
      by simp only [create_agent, hAbsent, h1, h2, h3, if_true, if_false, Bool.false_eq_true]; rfl, ?_, ?_, ?_, ?_⟩
    · exact (cleanup_agent_spec _ _).1
    · exact (cleanup_agent_spec _ _).2.1
    · exact (cleanup_agent_spec _ _).2.2.1
    · intro r hr hnr
      rw [cleanup_agent_openedRes] at hr
      rw [cleanup_agent_closedRes _ _ [st.nextId + 1, st.nextId] (alookup_ainsert_self _ _ _)]
      simp only [List.mem_cons] at hr
      rcases hr with hr | hr
      · simp [hr]
      rcases hr with hr | hr
      · simp [hr]
      · exact absurd hr hnr
  by_cases h4 : o.failTools = true
  · refine ⟨"load_mcp_tools failed", _,
      by simp only [create_agent, hAbsent, h1, h2, h3, h4, if_true, if_false, Bool.false_eq_true]; rfl, ?_, ?_, ?_, ?_⟩
    · exact (cleanup_agent_spec _ _).1
    · exact (cleanup_agent_spec _ _).2.1
    · exact (cleanup_agent_spec _ _).2.2.1
    · intro r hr hnr
      rw [cleanup_agent_openedRes] at hr
      rw [cleanup_agent_closedRes _ _ [st.nextId + 1, st.nextId] (alookup_ainsert_self _ _ _)]
      simp only [List.mem_cons] at hr
      rcases hr with hr | hr
      · simp [hr]
      rcases hr with hr | hr
      · simp [hr]
      · exact absurd hr hnr
  by_cases h5 : o.failProjects = true
  · refine ⟨"get_projects failed", _,
      by simp only [create_agent, hAbsent, h1, h2, h3, h4, h5, if_true, if_false, Bool.false_eq_true]; rfl, ?_, ?_, ?_, ?_⟩
    · exact (cleanup_agent_spec _ _).1
    · exact (cleanup_agent_spec _ _).2.1
    · exact (cleanup_agent_spec _ _).2.2.1
    · intro r hr hnr
      rw [cleanup_agent_openedRes] at hr
      rw [cleanup_agent_closedRes _ _ [st.nextId + 1, st.nextId] (alookup_ainsert_self _ _ _)]
      simp only [List.mem_cons] at hr
      rcases hr with hr | hr
      · simp [hr]
      rcases hr with hr | hr
      · simp [hr]
      · exact absurd hr hnr
  by_cases h6 : o.failConstruct = true
  · refine ⟨"create_react_agent failed", _,
      by simp only [create_agent, hAbsent, h1, h2, h3, h4, h5, h6, if_true, if_false, Bool.false_eq_true]; rfl, ?_, ?_, ?_, ?_⟩
    · exact (cleanup_agent_spec _ _).1
    · exact (cleanup_agent_spec _ _).2.1
    · exact (cleanup_agent_spec _ _).2.2.1
    · intro r hr hnr
      rw [cleanup_agent_openedRes] at hr
      rw [cleanup_agent_closedRes _ _ [st.nextId + 1, st.nextId] (alookup_ainsert_self _ _ _)]
      simp only [List.mem_cons] at hr
      rcases hr with hr | hr
      · simp [hr]
      rcases hr with hr | hr
      · simp [hr]
      · exact absurd hr hnr
  · exfalso
    simp only [CreationOracle.anyFail, h1, h2, h3, h4, h5, h6] at hFail
    simp at hFail

/-- C2 witness: from the empty manager, a creation whose
`session.initialize()` step fails rolls back completely. -/
theorem c2_create_agent_rollback_witness :
    alookup "42" mgr0.agents = none ∧ failInitOracle.anyFail = true ∧
    (∃ e st', create_agent failInitOracle "42" mgr0 = (.error e, st') ∧
      alookup "42" st'.agents = none ∧
      alookup "42" st'.sessions = none ∧
      alookup "42" st'.exit_stacks = none ∧
      (∀ r ∈ st'.openedRes, r ∉ mgr0.openedRes → r ∈ st'.closedRes)) :=
  ⟨by decide, by decide,
   c2_create_agent_rollback_on_failure failInitOracle "42" mgr0 (by decide) (by decide)⟩

/-- C3: for an established session, if the agent invocation inside
`process_message` fails, the session is evicted from all registries, the
call returns the user-facing failure message embedding the failure detail
(it does not re-raise and does not retry), and a subsequent call for the
same key runs a fresh session creation. -/
theorem c3_eviction_on_invocation_failure (o o2 : CreationOracle)
    (inv2 : Except String AgentResponse) (e api_key query query2 thread_id : String)
    (st : MgrState) (a : Nat)
    (hAgent : alookup thread_id st.agents = some a) (hKey : api_key ≠ "") :
    (process_message o (.error e) api_key query thread_id st).1 =
      "К сожалению, произошла внутренняя ошибка. Попробуйте снова.\n\nДетали: " ++ e ∧
    alookup thread_id (process_message o (.error e) api_key query thread_id st).2.agents = none ∧
    alookup thread_id (process_message o (.error e) api_key query thread_id st).2.sessions = none ∧
    alookup thread_id (process_message o (.error e) api_key query thread_id st).2.exit_stacks = none ∧
    (process_message o2 inv2 api_key query2 thread_id
        (process_message o (.error e) api_key query thread_id st).2).2.createRuns =
      (process_message o (.error e) api_key query thread_id st).2.createRuns + 1 := by
  rw [process_message_invfail o e api_key query thread_id st a hAgent hKey]
  refine ⟨rfl, (cleanup_agent_spec _ _).1, (cleanup_agent_spec _ _).2.1,
          (cleanup_agent_spec _ _).2.2.1, ?_⟩
  exact process_message_createRuns o2 inv2 api_key query2 thread_id _
    (cleanup_agent_spec _ _).1 hKey

/-- C3 witness: a failing invocation on the established session `"42"`
returns the failure text, evicts the key, and the next call re-creates. -/
theorem c3_eviction_witness :
    alookup "42" mgrWithAgent.agents = some 7 ∧ ("key" : String) ≠ "" ∧
    ((process_message okOracle (.error "boom") "key" "hi" "42" mgrWithAgent).1 =
      "К сожалению, произошла внутренняя ошибка. Попробуйте снова.\n\nДетали: " ++ "boom" ∧
     alookup "42" (process_message okOracle (.error "boom") "key" "hi" "42" mgrWithAgent).2.agents = none ∧
     alookup "42" (process_message okOracle (.error "boom") "key" "hi" "42" mgrWithAgent).2.sessions = none ∧
     alookup "42" (process_message okOracle (.error "boom") "key" "hi" "42" mgrWithAgent).2.exit_stacks = none ∧
     (process_message okOracle (.ok .notDict) "key" "again" "42"
         (process_message okOracle (.error "boom") "key" "hi" "42" mgrWithAgent).2).2.createRuns =
       (process_message okOracle (.error "boom") "key" "hi" "42" mgrWithAgent).2.createRuns + 1) :=
  ⟨by decide, by decide,
   c3_eviction_on_invocation_failure okOracle okOracle (.ok .notDict) "boom" "key" "hi" "again"
     "42" mgrWithAgent 7 (by decide) (by decide)⟩

/-- C4: `_cleanup_agent` is idempotent: after a call the key is absent
from every registry; a second call is a no-op that cannot raise (even if
`aclose` could raise, there is no stack left to close); a call for a key
absent from every registry leaves the state unchanged. -/
theorem c4_cleanup_idempotent (thread_id : String) (st : MgrState) :
    (alookup thread_id (cleanup_agent thread_id st).agents = none ∧
     alookup thread_id (cleanup_agent thread_id st).sessions = none ∧
     alookup thread_id (cleanup_agent thread_id st).exit_stacks = none ∧
     alookup thread_id (cleanup_agent thread_id st).locks = none) ∧
    cleanup_agent thread_id (cleanup_agent thread_id st) = cleanup_agent thread_id st ∧
    (∀ f, (cleanup_agent_e f thread_id (cleanup_agent thread_id st)).1 = none) ∧
    ((alookup thread_id st.agents = none ∧ alookup thread_id st.sessions = none ∧
      alookup thread_id st.exit_stacks = none ∧ alookup thread_id st.locks = none) →
      cleanup_agent thread_id st = st) := by
  obtain ⟨ha, hs, he, hl⟩ := cleanup_agent_spec thread_id st
  refine ⟨⟨ha, hs, he, hl⟩, cleanup_agent_noop thread_id _ ha hs he hl,
          fun f => cleanup_agent_e_noraise f thread_id _ he, ?_⟩
  rintro ⟨ha', hs', he', hl'⟩
  exact cleanup_agent_noop thread_id st ha' hs' he' hl'

/-- C4 witness: releasing a never-created key is a no-op, and a second
release of key `"42"` equals the first. -/
theorem c4_cleanup_idempotent_witness :
    cleanup_agent "x" mgr0 = mgr0 ∧
    cleanup_agent "42" (cleanup_agent "42" mgrWithAgent) = cleanup_agent "42" mgrWithAgent :=
  ⟨(c4_cleanup_idempotent "x" mgr0).2.2.2 ⟨by decide, by decide, by decide, by decide⟩,
   (c4_cleanup_idempotent "42" mgrWithAgent).2.1⟩

/-- C6: for a key that already has an entry, `_get_or_create_agent`
returns the existing bound agent immediately and leaves the whole manager
state (all four registries, ids, resources, creation count) unchanged. -/
theorem c6_fast_path_reuse (o : CreationOracle) (thread_id : String) (st : MgrState)
    (a : Nat) (h : alookup thread_id st.agents = some a) :
    get_or_create_agent o thread_id st = (.ok a, st) :=
  get_or_create_agent_hit o thread_id st a h

/-- C6 witness: the established session `"42"` is reused as-is. -/
theorem c6_fast_path_witness :
    alookup "42" mgrWithAgent.agents = some 7 ∧
    get_or_create_agent failInitOracle "42" mgrWithAgent = (.ok 7, mgrWithAgent) :=
  ⟨by decide, c6_fast_path_reuse failInitOracle "42" mgrWithAgent 7 (by decide)⟩

/-- C7: `process_message` always returns a text reply and never re-raises:
an empty credential yields the missing-credential text with no state change
and no session creation; a creation failure and an invocation failure are
both converted into the failure text. -/
theorem c7_exceptions_converted_to_text (o : CreationOracle)
    (inv : Except String AgentResponse) (api_key query thread_id : String) (st : MgrState) :
    (api_key = "" →
      process_message o inv api_key query thread_id st =
        ("Ошибка: API ключ не предоставлен.", st)) ∧
    (∀ e st', api_key ≠ "" → get_or_create_agent o thread_id st = (.error e, st') →
      (process_message o inv api_key query thread_id st).1 =
        "К сожалению, произошла внутренняя ошибка. Попробуйте снова.\n\nДетали: " ++ e) ∧
    (∀ e a st', api_key ≠ "" → get_or_create_agent o thread_id st = (.ok a, st') →
      inv = .error e →
      (process_message o inv api_key query thread_id st).1 =
        "К сожалению, произошла внутренняя ошибка. Попробуйте снова.\n\nДетали: " ++ e) := by
  refine ⟨?_, ?_, ?_⟩
  · intro h
    unfold process_message
    rw [if_pos h]
  · intro e st' hk hg
    unfold process_message
    rw [if_neg hk, hg]
  · intro e a st' hk hg hi
    unfold process_message
    rw [if_neg hk, hg, hi]

/-- C7 witness: empty credential, failing creation, failing invocation. -/
theorem c7_exceptions_witness :
    process_message okOracle (.ok .notDict) "" "hi" "42" mgr0 =
      ("Ошибка: API ключ не предоставлен.", mgr0) ∧
    (process_message failInitOracle (.ok .notDict) "key" "hi" "42" mgr0).1 =
      "К сожалению, произошла внутренняя ошибка. Попробуйте снова.\n\nДетали: " ++
        "session.initialize failed" ∧
    (process_message okOracle (.error "boom") "key" "hi" "42" mgrWithAgent).1 =
      "К сожалению, произошла внутренняя ошибка. Попробуйте снова.\n\nДетали: " ++ "boom" := by
  refine ⟨(c7_exceptions_converted_to_text okOracle (.ok .notDict) "" "hi" "42" mgr0).1 rfl,
          ?_, ?_⟩
  · exact (c7_exceptions_converted_to_text failInitOracle (.ok .notDict) "key" "hi" "42" mgr0).2.1
      "session.initialize failed" (get_or_create_agent failInitOracle "42" mgr0).2
      (by decide) (by decide)
  · exact (c7_exceptions_converted_to_text okOracle (.error "boom") "key" "hi" "42" mgrWithAgent).2.2
      "boom" 7 mgrWithAgent (by decide) (by decide) rfl

/-- C8: on a successful invocation, `process_message` returns the content
of the last message of the agent's response; when the response is not a
dict with a non-empty `"messages"` list it returns the fixed fallback. -/
theorem c8_final_message_extraction (o : CreationOracle)
    (api_key query thread_id m : String) (ms : List String) (st : MgrState) (a : Nat)
    (hAgent : alookup thread_id st.agents = some a) (hKey : api_key ≠ "") :
    (process_message o (.ok (.dictMessages (m :: ms))) api_key query thread_id st).1 =
      (m :: ms).getLast (List.cons_ne_nil m ms) ∧
    (process_message o (.ok .notDict) api_key query thread_id st).1 =
      "Не удалось извлечь ответ." ∧
    (process_message o (.ok .dictNoMessages) api_key query thread_id st).1 =
      "Не удалось извлечь ответ." ∧
    (process_message o (.ok (.dictMessages [])) api_key query thread_id st).1 =
      "Не удалось извлечь ответ." := by
  have hbase : ∀ r : AgentResponse,
      (process_message o (.ok r) api_key query thread_id st).1 = extract_final_content r := by
    intro r
    unfold process_message
    rw [if_neg hKey, get_or_create_agent_hit o thread_id st a hAgent]
  refine ⟨?_, ?_, ?_, ?_⟩ <;> rw [hbase] <;> rfl

/-- C8 witness: last message content, and the fallback for unparsable
responses. -/
theorem c8_final_message_witness :
    alookup "42" mgrWithAgent.agents = some 7 ∧ ("key" : String) ≠ "" ∧
    ((process_message okOracle (.ok (.dictMessages ["a", "b", "final"])) "key" "hi" "42"
        mgrWithAgent).1 = "final" ∧
     (process_message okOracle (.ok .notDict) "key" "hi" "42" mgrWithAgent).1 =
       "Не удалось извлечь ответ.") := by
  refine ⟨by decide, by decide, ?_, ?_⟩
  · have h := (c8_final_message_extraction okOracle "key" "hi" "42" "a" ["b", "final"]
      mgrWithAgent 7 (by decide) (by decide)).1
    simpa using h
  · exact (c8_final_message_extraction okOracle "key" "hi" "42" "a" ["b", "final"]
      mgrWithAgent 7 (by decide) (by decide)).2.1

/-- C1: the claimed mutual exclusion of `_create_agent` fails.  Three
concurrent `_get_or_create_agent` calls for key `"k"` with no pre-existing
session; task 0 acquires the freshly created lock and its creation fails at
the stdio-open step while task 1 waits on that lock.  Task 0's
`_cleanup_agent` pops `_locks["k"]`, hands the old lock to task 1; task 2
then finds no lock in `_locks`, installs a fresh one and enters
`_create_agent`; task 1 wakes holding the old lock, re-checks `_agents`
(still empty) and enters `_create_agent` too.  After the schedule
`[t0, t1, t0, t0, t2, t1]` two tasks are inside `_create_agent` for the
same key simultaneously. -/
theorem c1_concurrent_double_creation :
    countCreating (runSys sysC1 [0, 1, 0, 0, 2, 1]) = 2 ∧
    ((alookup 1 (runSys sysC1 [0, 1, 0, 0, 2, 1]).tasks).map TaskT.pc =
      some (.creating 0 0)) ∧
    ((alookup 2 (runSys sysC1 [0, 1, 0, 0, 2, 1]).tasks).map TaskT.pc =
      some (.creating 1 0)) ∧
    (runSys sysC1 [0, 1, 0, 0, 2, 1]).agents = [] := by
  decide

/-- C5 counterexample: with two tracked keys, a raise from releasing `"a"`
aborts `shutdown` before `"b"` is touched: the error propagates, `"b"`
remains in every registry, its resources are not closed, and even `"a"`
keeps its `_agents` entry (the pops after `aclose` were skipped).  This
refutes the claim that after `shutdown` the registry is empty and all
resources are released even if one key's release raised. -/
theorem c5_shutdown_not_failure_tolerant :
    (shutdown (fun k => k == "a") shutdownDemo).1 = some "aclose failed" ∧
    alookup "b" (shutdown (fun k => k == "a") shutdownDemo).2.agents = some 11 ∧
    alookup "b" (shutdown (fun k => k == "a") shutdownDemo).2.exit_stacks = some [3, 2] ∧
    2 ∉ (shutdown (fun k => k == "a") shutdownDemo).2.closedRes ∧
    alookup "a" (shutdown (fun k => k == "a") shutdownDemo).2.agents = some 10 := by
  decide

/-- C5 (amended): when no per-key release raises, `shutdown` releases every
tracked key: afterwards `_exit_stacks` is empty and every key that had an
exit stack is gone from `_agents`, `_sessions` and `_locks` with all its
stack resources closed.  (A raise from one key's release aborts the loop
and the remaining keys are not released — see the counterexample.) -/
theorem c5_shutdown_releases_all_without_failures (st : MgrState) :
    (shutdown (fun _ => false) st).1 = none ∧
    (∀ k, alookup k (shutdown (fun _ => false) st).2.exit_stacks = none) ∧
    (∀ k stack, alookup k st.exit_stacks = some stack →
      alookup k (shutdown (fun _ => false) st).2.agents = none ∧
      alookup k (shutdown (fun _ => false) st).2.sessions = none ∧
      alookup k (shutdown (fun _ => false) st).2.locks = none ∧
      ∀ r ∈ stack, r ∈ (shutdown (fun _ => false) st).2.closedRes) := by
  obtain ⟨g1, g2, _, _, _, _, g7⟩ :=
    shutdown_loop_clears (keysOf st.exit_stacks) st
      (fun k hne => alookup_ne_none_mem_keys hne)
  exact ⟨g1, g2, g7⟩

/-- C5 witness: a failure-free shutdown of the two-session manager
releases both keys and closes all four resources. -/
theorem c5_shutdown_witness :
    alookup "a" shutdownDemo.exit_stacks = some [1, 0] ∧
    alookup "b" shutdownDemo.exit_stacks = some [3, 2] ∧
    ((shutdown (fun _ => false) shutdownDemo).1 = none ∧
     alookup "b" (shutdown (fun _ => false) shutdownDemo).2.exit_stacks = none ∧
     alookup "a" (shutdown (fun _ => false) shutdownDemo).2.agents = none ∧
     ∀ r ∈ [3, 2], r ∈ (shutdown (fun _ => false) shutdownDemo).2.closedRes) := by
  refine ⟨by decide, by decide, (c5_shutdown_releases_all_without_failures shutdownDemo).1,
          (c5_shutdown_releases_all_without_failures shutdownDemo).2.1 "b", ?_, ?_⟩
  · exact ((c5_shutdown_releases_all_without_failures shutdownDemo).2.2 "a" [1, 0]
      (by decide)).1
  · exact ((c5_shutdown_releases_all_without_failures shutdownDemo).2.2 "b" [3, 2]
      (by decide)).2.2.2

/-- C9: negative hours are rejected before any remote operation: the
`log_time` tool replies with the error text and sends nothing,
`convert_hours_to_iso8601_duration` raises `ValueError`, and
`log_time_on_task` sends no time entry. -/
theorem c9_negative_hours_rejected (api_key : String) (sendOk : Bool) (task_id : Int)
    (hours : ℚ) (comment : Option String) (hneg : hours < 0) (hkey : api_key ≠ "") :
    log_time api_key sendOk task_id hours comment =
      ("Ошибка: Нельзя зарегистрировать отрицательное время.", none) ∧
    convert_hours_to_iso8601_duration hours =
      .error "Количество часов не может быть отрицательным." ∧
    log_time_on_task task_id hours comment = none := by
  have hconv : convert_hours_to_iso8601_duration hours =
      .error "Количество часов не может быть отрицательным." := by
    unfold convert_hours_to_iso8601_duration
    rw [if_pos hneg]
  refine ⟨?_, hconv, ?_⟩
  · unfold log_time
    rw [if_neg hkey, if_pos hneg]
  · unfold log_time_on_task
    rw [hconv]

/-- C9 witness: logging `-1` hours on task 5. -/
theorem c9_negative_hours_witness :
    (-1 : ℚ) < 0 ∧ ("apikey" : String) ≠ "" ∧
    (log_time "apikey" true 5 (-1) none =
      ("Ошибка: Нельзя зарегистрировать отрицательное время.", none) ∧
     convert_hours_to_iso8601_duration (-1) =
      .error "Количество часов не может быть отрицательным." ∧
     log_time_on_task 5 (-1) none = none) :=
  ⟨by norm_num, by decide,
   c9_negative_hours_rejected "apikey" true 5 (-1) none (by norm_num) (by decide)⟩

/-! ## C10: duration round-trip -/

theorem convert_iso_pt (rest : List Char) :
    convert_iso8601_duration_to_hours (String.mk ('P' :: 'T' :: rest)) =
      .ok ((match findIntBefore 'H' rest with | some n => (n : ℚ) | none => 0) +
           (match findIntBefore 'M' rest with | some n => (n : ℚ) | none => 0) / 60) := rfl

theorem convert_hours_eq (hours : ℚ) :
    convert_hours_to_iso8601_duration hours =
      if hours < 0 then .error "Количество часов не может быть отрицательным."
      else if (Int.floor (hours * 60)).toNat = 0 then .ok "PT0S"
      else if ((if 0 < (Int.floor (hours * 60)).toNat / 60 then
                  [natToDigits ((Int.floor (hours * 60)).toNat / 60) ++ ['H']] else []) ++
               (if 0 < (Int.floor (hours * 60)).toNat % 60 then
                  [natToDigits ((Int.floor (hours * 60)).toNat % 60) ++ ['M']] else [])) = []
           then .ok "PT0S"
           else .ok (String.mk (['P', 'T'] ++
             ((if 0 < (Int.floor (hours * 60)).toNat / 60 then
                 [natToDigits ((Int.floor (hours * 60)).toNat / 60) ++ ['H']] else []) ++
              (if 0 < (Int.floor (hours * 60)).toNat % 60 then
                 [natToDigits ((Int.floor (hours * 60)).toNat % 60) ++ ['M']] else [])).flatten)) :=
  rfl

/-- C10: the duration conversion round-trips: for every non-negative
`hours` whose minute total `hours * 60` is an integer,
`convert_iso8601_duration_to_hours ∘ convert_hours_to_iso8601_duration`
is the identity; in particular `0` maps to `"PT0S"` and back to `0`. -/
theorem c10_duration_roundtrip (hours : ℚ) (h0 : 0 ≤ hours) (hden : (hours * 60).den = 1) :
    (∃ s, convert_hours_to_iso8601_duration hours = .ok s ∧
          convert_iso8601_duration_to_hours s = .ok hours) ∧
    convert_hours_to_iso8601_duration 0 = .ok "PT0S" ∧
    convert_iso8601_duration_to_hours "PT0S" = .ok 0 := by
  have hPT0S : convert_iso8601_duration_to_hours "PT0S" = .ok 0 := by
    rw [show ("PT0S" : String) = String.mk ['P', 'T', '0', 'S'] from rfl, convert_iso_pt]
    norm_num [show findIntBefore 'H' ['0', 'S'] = none from rfl,
              show findIntBefore 'M' ['0', 'S'] = none from rfl]
  have hzero : convert_hours_to_iso8601_duration 0 = .ok "PT0S" := by
    rw [convert_hours_eq]
    norm_num
  refine ⟨?_, hzero, hPT0S⟩
  have hnum : ((hours * 60).num : ℚ) = hours * 60 := (Rat.den_eq_one_iff _).mp hden
  have hnn : 0 ≤ (hours * 60).num := by
    rw [Rat.num_nonneg]
    positivity
  obtain ⟨m, hm⟩ : ∃ m : Nat, (hours * 60).num = (m : ℤ) :=
    ⟨(hours * 60).num.toNat, (Int.toNat_of_nonneg hnn).symm⟩
  have hq : hours * 60 = (m : ℚ) := by
    rw [← hnum, hm]
    push_cast
    ring
  have hfloor : (Int.floor (hours * 60)).toNat = m := by
    rw [hq, Int.floor_natCast, Int.toNat_natCast]
  have hhours : hours = (m : ℚ) / 60 := by
    rw [← hq]
    ring
  by_cases hm0 : m = 0
  · have hzero' : hours = 0 := by
      rw [hhours, hm0]
      norm_num
    exact ⟨"PT0S", by rw [hzero']; exact hzero, by rw [hzero']; exact hPT0S⟩
  · have hqr : 60 * (m / 60) + m % 60 = m := Nat.div_add_mod m 60
    have hcast : ((60 * (m / 60) + m % 60 : ℕ) : ℚ) = (m : ℚ) := by rw [hqr]
    by_cases hq0 : 0 < m / 60 <;> by_cases hr0 : 0 < m % 60
    · -- hours and minutes components both present: "PT{h}H{m}M"
      refine ⟨String.mk ('P' :: 'T' ::
        (natToDigits (m / 60) ++ 'H' :: (natToDigits (m % 60) ++ ['M']))), ?_, ?_⟩
      · rw [convert_hours_eq, if_neg (not_lt.mpr h0), hfloor, if_neg hm0,
            if_pos hq0, if_pos hr0, if_neg (by simp)]
        congr 1
        simp
      · rw [convert_iso_pt,
            findIntBefore_digits 'H' 'H' (by decide) (m / 60) (natToDigits (m % 60) ++ ['M']),
            if_pos rfl,
            findIntBefore_digits 'M' 'H' (by decide) (m / 60) (natToDigits (m % 60) ++ ['M']),
            if_neg (by decide),
            findIntBefore_digits 'M' 'M' (by decide) (m % 60) [], if_pos rfl]
        simp only []
        congr 1
        rw [hhours, ← hcast]
        push_cast
        field_simp
        ring
    · -- only the hours component: "PT{h}H"
      refine ⟨String.mk ('P' :: 'T' :: (natToDigits (m / 60) ++ ['H'])), ?_, ?_⟩
      · rw [convert_hours_eq, if_neg (not_lt.mpr h0), hfloor, if_neg hm0,
            if_pos hq0, if_neg hr0, if_neg (by simp)]
        congr 1
        simp
      · rw [convert_iso_pt,
            findIntBefore_digits 'H' 'H' (by decide) (m / 60) [], if_pos rfl,
            findIntBefore_digits 'M' 'H' (by decide) (m / 60) [], if_neg (by decide),
            findIntBefore_nil 'M']
        simp only []
        congr 1
        rw [hhours, ← hcast]
        have hr0' : m % 60 = 0 := by omega
        rw [hr0']
        push_cast
        field_simp
    · -- only the minutes component: "PT{m}M"
      refine ⟨String.mk ('P' :: 'T' :: (natToDigits (m % 60) ++ ['M'])), ?_, ?_⟩
      · rw [convert_hours_eq, if_neg (not_lt.mpr h0), hfloor, if_neg hm0,
            if_neg hq0, if_pos hr0, if_neg (by simp)]
        congr 1
        simp
      · rw [convert_iso_pt,
            findIntBefore_digits 'H' 'M' (by decide) (m % 60) [], if_neg (by decide),
            findIntBefore_nil 'H',
            findIntBefore_digits 'M' 'M' (by decide) (m % 60) [], if_pos rfl]
        simp only []
        congr 1
        rw [hhours, ← hcast]
        have hq0' : m / 60 = 0 := by omega
        rw [hq0']
        push_cast
        field_simp
    · exfalso
      omega

/-- C10 witness: 2.5 hours maps to `"PT2H30M"` and back to 2.5. -/
theorem c10_duration_roundtrip_witness :
    (0 : ℚ) ≤ 5 / 2 ∧ ((5 / 2 : ℚ) * 60).den = 1 ∧
    ((∃ s, convert_hours_to_iso8601_duration (5 / 2) = .ok s ∧
           convert_iso8601_duration_to_hours s = .ok (5 / 2)) ∧
     convert_hours_to_iso8601_duration 0 = .ok "PT0S" ∧
     convert_iso8601_duration_to_hours "PT0S" = .ok 0) :=
  ⟨by norm_num, by norm_num, c10_duration_roundtrip (5 / 2) (by norm_num) (by norm_num)⟩

end OpenProjectMCP
